import Mathlib

/-!
Verification of the glacier-data batch scripts
(`clean_glacier_id_columns.py`, `convert_geojson_to_mbtiles.py`,
`convert_mbtiles_to_pbf.py`) against their natural-language specification.

The three Python scripts are embedded shallowly: JSON property mappings
become association lists with Python-dict update semantics, the sqlite
metadata database of an `.mbtiles` archive becomes an oracle record that
says what each query or connection attempt yields, and each external
subprocess becomes an oracle giving its exit status.  Every per-file loop
becomes a structurally recursive function over the directory listing that
returns the sequence of observable events (log lines and executed
commands), so claims about batch continuation, skipping, and frame
conditions can be stated and proved.
-/

/-! ## Property Copier (`clean_glacier_id_columns.py`)

`json.load` turns each GeoJSON file into nested dicts.  For the claims we
need each feature's `properties` mapping (string key to scalar value),
the optional `features` array, and the fact that everything else is
carried through `json.dump` unchanged; unmodelled members are carried in
opaque `rest` fields. -/

/-- A scalar JSON property value as found in feature `properties`. -/
inductive PValue where
  | str (s : String)
  | num (n : Int)
  | bool (b : Bool)
  | null
deriving Repr, DecidableEq

/-- A Python dict with string keys, as an association list in insertion
order (keys are unique in any dict produced by `json.load`). -/
abbrev PDict := List (String × PValue)

/-- Python `s.endswith(suffix)`. -/
def pyEndsWith (s suffix : String) : Bool :=
  suffix.toList.isSuffixOf s.toList

/-- Python `k in d`: some entry carries key `k`. -/
def dictContains : PDict → String → Bool
  | [], _ => false
  | kv :: t, k => kv.1 == k || dictContains t k

/-- Python `d.get(k)` / `d[k]`: the value stored at key `k`, if any
(keys are unique in a dict, so the first match is the match). -/
def dictGet : PDict → String → Option PValue
  | [], _ => none
  | kv :: t, k => if kv.1 == k then some kv.2 else dictGet t k

/-- Python `d[k] = v`: replace the value at an existing key in place
(insertion order kept), otherwise append the new key at the end. -/
def dictSet (d : PDict) (k : String) (v : PValue) : PDict :=
  if dictContains d k then
    d.map (fun kv => if kv.1 == k then (k, v) else kv)
  else
    d ++ [(k, v)]

/-- One member of the `features` array: its `properties` dict (absent when
the feature object has no `properties` member) and the remaining members
(`type`, `geometry`, ...) which the script never touches. -/
structure Feature where
  properties? : Option PDict
  rest : PDict
deriving Repr, DecidableEq

/-- A parsed GeoJSON file: the optional `features` array plus all other
top-level members, untouched by the script. -/
structure Geojson where
  features? : Option (List Feature)
  rest : PDict
deriving Repr, DecidableEq

/-- The loop body
`if "SGI" in feature.get("properties", {}): feature["properties"]["sgi-id"] = feature["properties"]["SGI"]`.
When the feature has no `properties` member, `feature.get("properties", {})`
is `{}`, the membership test fails and the feature is left alone. -/
def processFeature (f : Feature) : Feature :=
  match f.properties? with
  | none => f
  | some props =>
    match dictGet props "SGI" with
    | some v => { f with properties? := some (dictSet props "sgi-id" v) }
    | none => f

/-- Effect of the script on one parsed file: every element of
`geojson_data.get("features", [])` goes through the loop body; all other
data is dumped back unchanged. -/
def processGeojson (g : Geojson) : Geojson :=
  match g.features? with
  | none => g
  | some fs => { g with features? := some (fs.map processFeature) }

/-- The module-level loop: for every `filename` in `os.listdir(DATA_DIR)`
ending in `.geojson`, load the file, process it, and write the result back
to `file_path` — the very same path that was read (the handle is named
`new_file` but `open(file_path, "w")` targets the original file; no
`updated_`-prefixed name is ever formed).  The store maps each filename in
the data directory to its parsed content. -/
def processDataDir (store : List (String × Geojson)) : List (String × Geojson) :=
  store.map (fun nf => if pyEndsWith nf.1 ".geojson" then (nf.1, processGeojson nf.2) else nf)

/-- Python `d.get(k)` on a file store. -/
def lookupFile (store : List (String × Geojson)) (name : String) : Option Geojson :=
  (store.find? (fun nf => nf.1 == name)).map (fun nf => nf.2)

/-! ## Archive Exploder (`convert_mbtiles_to_pbf.py`)

The sqlite database embedded in an `.mbtiles` archive is modelled as an
oracle: what `sqlite3.connect` raises (it stands before the `try` block,
so such an error is never caught inside `get_zoom_levels`), what the
`cursor.execute`/`fetchone` calls raise inside the `try` block, and the
rows of the `metadata` table.  The main loop is a recursion over
`os.listdir(srcDir)` that threads the filesystem state (the directory
listing is the snapshot taken by `os.listdir`; the set of directories is
live, since `os.path.exists` is consulted per iteration and `ogr2ogr`
creates the output directory) and returns the observable events. -/

/-- The exception classes distinguished by `handle_zoom_level_error`:
the sqlite hierarchy (`OperationalError` ⊂ `DatabaseError` ⊂ `Error`,
flattened here into the most specific class, exactly what the
`isinstance` chain selects), `ValueError`, `OSError`, and any other
exception type (the `else` branch of the handler). -/
inductive ZoomError where
  | sqliteOperational (msg : String)
  | sqliteDatabase (msg : String)
  | sqliteGeneral (msg : String)
  | valueError (msg : String)
  | osError (msg : String)
  | unexpected (msg : String)
deriving Repr, DecidableEq

/-- Whether the exception is one of the classes listed in the `except`
tuple of `get_zoom_levels`
(`sqlite3.OperationalError, sqlite3.DatabaseError, sqlite3.Error, ValueError, OSError`).
Any other exception raised inside the `try` block propagates. -/
def caughtByExceptClause : ZoomError → Bool
  | .unexpected _ => false
  | _ => true

/-- A zoom bound as returned by `get_zoom_levels`: the default path
returns the Python ints `1, 12`, the metadata path returns the raw
strings stored in the table.  Both are later interpolated into the
`ogr2ogr` command line via an f-string. -/
inductive ZoomVal where
  | intVal (n : Int)
  | strVal (s : String)
deriving Repr, DecidableEq

/-- How the value appears inside the f-string building `COMMAND`
(Python `str`). -/
def ZoomVal.render : ZoomVal → String
  | .intVal n => toString n
  | .strVal s => s

/-- Oracle for one `.mbtiles` archive: what connecting raises, what the
metadata queries raise, and the `(name, value)` rows of its `metadata`
table. -/
structure MBTilesDB where
  connectError : Option ZoomError
  lookupError : Option ZoomError
  metadata : List (String × String)

/-- The query `SELECT value FROM metadata WHERE name=key` followed by `fetchone()`:
the value of the first row whose `name` column equals `key`, if any. -/
def metaLookup (db : MBTilesDB) (key : String) : Option String :=
  (db.metadata.find? (fun row => row.1 == key)).map (fun row => row.2)

/-- Python `handle_zoom_level_error(error, filename)`: prints a message chosen by
the `isinstance` chain (most specific sqlite class first) and returns
`(None, None)`.  The result pairs the printed message with the returned
zoom bounds. -/
def handle_zoom_level_error (error : ZoomError) (filename : String) :
    String × (Option ZoomVal × Option ZoomVal) :=
  match error with
  | .sqliteOperational m =>
      (s!"SQLite operational error reading zoom levels from {filename}: {m}", (none, none))
  | .sqliteDatabase m =>
      (s!"SQLite database error reading zoom levels from {filename}: {m}", (none, none))
  | .sqliteGeneral m =>
      (s!"General SQLite error reading zoom levels from {filename}: {m}", (none, none))
  | .valueError m =>
      (s!"Value error processing zoom levels from {filename}: {m}", (none, none))
  | .osError m =>
      (s!"OS error accessing {filename}: {m}", (none, none))
  | .unexpected m =>
      (s!"Unexpected error reading zoom levels from {filename}: {m}", (none, none))

/-- Observable events of the Archive Exploder's main loop.  `ranCommand`
records the pieces interpolated into the `ogr2ogr` command line (see
`renderedCommand`); the others are the printed log lines (`dirExistsSkip`
is the collision message quoting the directory name). -/
inductive ExplodeEvent where
  | dirExistsSkip (dirName : String)
  | zoomErrorLog (msg : String)
  | noZoomWarning (filename : String)
  | missingZoomSkip (filename : String)
  | ranCommand (newDirName : String) (file : String) (minzoom : String) (maxzoom : String)
deriving Repr, DecidableEq

/-- The `COMMAND` f-string of the main loop. -/
def renderedCommand (newDirName file minzoom maxzoom : String) : String :=
  s!"ogr2ogr -f MVT {newDirName} {file} -dsco MINZOOM={minzoom} -dsco MAXZOOM={maxzoom} -dsco COMPRESS=NO -dsco FORMAT=DIRECTORY"

/-- Python `get_zoom_levels(filename)`.  `sqlite3.connect` stands before the
`try` block: an error raised there propagates to the caller (`.error`).
Inside the `try` block, an exception of one of the classes in the
`except` tuple goes to `handle_zoom_level_error`, which yields
`(None, None)`; any other exception propagates.  With no exception, a
missing `minzoom` or `maxzoom` row prints the warning and returns the
default ints `(1, 12)`; otherwise the raw string values are returned.
The `.ok` payload pairs the printed log lines with the returned bounds. -/
def get_zoom_levels (db : MBTilesDB) (filename : String) :
    Except ZoomError (List ExplodeEvent × (Option ZoomVal × Option ZoomVal)) :=
  match db.connectError with
  | some e => .error e
  | none =>
    match db.lookupError with
    | some e =>
      if caughtByExceptClause e then
        let r := handle_zoom_level_error e filename
        .ok ([.zoomErrorLog r.1], r.2)
      else
        .error e
    | none =>
      match metaLookup db "minzoom", metaLookup db "maxzoom" with
      | some minzoom_result, some maxzoom_result =>
          .ok ([], (some (.strVal minzoom_result), some (.strVal maxzoom_result)))
      | _, _ =>
          .ok ([.noZoomWarning filename], (some (.intVal 1), some (.intVal 12)))

/-- Python `os.path.basename(file).split('.')[0]`: the stem before the first dot
(`basename` is the identity on the bare names `os.listdir` yields;
`split` never returns an empty list, so the indexing never fails). -/
def newDirNameOf (file : String) : String :=
  String.mk (file.toList.takeWhile (fun c => c != '.'))

/-- Filesystem state threaded through the Archive Exploder's loop: the
files of the working directory and the set of existing directories. -/
structure FS where
  files : List String
  dirs : List String
deriving Repr, DecidableEq

/-- A run configuration for the Archive Exploder: the `os.listdir`
snapshot, the directories existing before the run, and the database
oracle of each archive file. -/
structure ExploderWorld where
  files : List String
  existingDirs : List String
  db : String → MBTilesDB

/-- One iteration of the main loop for a file ending in `.mbtiles`:
collision check against the live directory set first (skip with a log
line, before the database is even opened), then zoom resolution; a
`None` bound skips the file, otherwise the `ogr2ogr` command is printed
and run.  An exception from `get_zoom_levels` propagates (`.error`):
the loop body has no handler of its own. -/
def processMBTilesFile (db : MBTilesDB) (dirs : List String) (file : String) :
    Except ZoomError (List ExplodeEvent) :=
  let newDirName := newDirNameOf file
  if dirs.contains newDirName then
    .ok [.dirExistsSkip newDirName]
  else
    match get_zoom_levels db file with
    | .error e => .error e
    | .ok (logs, minzoom, maxzoom) =>
      match minzoom, maxzoom with
      | some mi, some ma =>
          .ok (logs ++ [.ranCommand newDirName file mi.render ma.render])
      | _, _ =>
          .ok (logs ++ [.missingZoomSkip file])

/-- Effect of one event on the filesystem: running the `ogr2ogr` command
creates the output directory; every other event only prints.  No event
removes a file — the script contains no deletion call. -/
def applyEvent (st : FS) : ExplodeEvent → FS
  | .ranCommand d _ _ _ => { st with dirs := st.dirs ++ [d] }
  | _ => st

/-- The Archive Exploder's main loop over the `os.listdir` snapshot.  An
uncaught exception from an iteration terminates the whole process there:
the result's third component records it and the remaining files are
never visited.  Otherwise the events accumulate and the filesystem state
is updated before the next iteration. -/
def explodeLoop (w : ExploderWorld) : List String → FS → FS × List ExplodeEvent × Option ZoomError
  | [], st => (st, [], none)
  | file :: rest, st =>
    if pyEndsWith file ".mbtiles" then
      match processMBTilesFile (w.db file) st.dirs file with
      | .error e => (st, [], some e)
      | .ok evs =>
        let r := explodeLoop w rest (evs.foldl applyEvent st)
        (r.1, evs ++ r.2.1, r.2.2)
    else
      explodeLoop w rest st

/-- A whole run of `convert_mbtiles_to_pbf.py` from the initial state. -/
def runExploder (w : ExploderWorld) : FS × List ExplodeEvent × Option ZoomError :=
  explodeLoop w w.files { files := w.files, dirs := w.existingDirs }

/-- The counter `MBTILES_FILE_COUNT`: the summary count printed before processing. -/
def mbtilesFileCount (files : List String) : Nat :=
  (files.filter (fun f => pyEndsWith f ".mbtiles")).length

/-! ## Tile Builder Invoker (`convert_geojson_to_mbtiles.py`)

`subprocess.run(command, check=True)` becomes an oracle giving the exit
status of each command; `check=True` raises `CalledProcessError` exactly
when the status is non-zero, and the `except` clause catches it, prints
the file name with the error, and lets the loop continue. -/

/-- Python `os.path.splitext(name)[0]`: the part before the last extension
separator — the last dot preceded by at least one non-dot character
(so a leading-dot name like `.bashrc` has no extension). -/
def splitext_root (name : String) : String :=
  let cs := name.toList
  let extIdxs := (List.range cs.length).filter
    (fun i => cs.getD i ' ' == '.' && (List.range i).any (fun j => cs.getD j ' ' != '.'))
  match extIdxs.getLast? with
  | some i => String.mk (cs.take i)
  | none => name

/-- Python `os.path.join(dir, name)` for a relative `name` on a POSIX path. -/
def joinPath (dir name : String) : String := dir ++ "/" ++ name

/-- A run configuration for the Tile Builder Invoker: the working
directory, its `os.listdir` snapshot, and the exit status
`subprocess.run` observes for each command. -/
structure TippeWorld where
  cwd : String
  files : List String
  exitCode : List String → Nat

/-- The argument list passed to `subprocess.run`:
`[tippecanoe_path, "-o", output_path, "-z", str(zmax), "-Z", str(zmin), "--generate-ids", "-f", input_path]`. -/
def tippecanoeCommand (tippecanoe_path : String) (zoom_levels : Int × Int)
    (cwd filename : String) : List String :=
  let output_filename := splitext_root filename ++ ".mbtiles"
  [tippecanoe_path, "-o", joinPath cwd output_filename,
   "-z", toString zoom_levels.2, "-Z", toString zoom_levels.1,
   "--generate-ids", "-f", joinPath cwd filename]

/-- Observable events of `convert_geojson_to_mbtiles`: the progress line,
the success line, and the `except` branch's
`Error converting {filename}: {e}` line carrying the triggering file
name and the `CalledProcessError` (its command and return code). -/
inductive TippeEvent where
  | converting (filename : String) (output_filename : String)
  | successLine (output_filename : String)
  | errorConverting (filename : String) (command : List String) (returncode : Nat)
deriving Repr, DecidableEq

/-- One iteration of the loop of `convert_geojson_to_mbtiles`: a file not
ending in `.geojson` produces nothing; otherwise the progress line is
printed and `subprocess.run(command, check=True)` runs — exit status `0`
prints the success line, a non-zero status raises `CalledProcessError`,
which the `except` clause catches and logs with the file name. -/
def convertFileEvents (w : TippeWorld) (tippecanoe_path : String) (zoom_levels : Int × Int)
    (filename : String) : List TippeEvent :=
  if pyEndsWith filename ".geojson" then
    let output_filename := splitext_root filename ++ ".mbtiles"
    let command := tippecanoeCommand tippecanoe_path zoom_levels w.cwd filename
    if w.exitCode command == 0 then
      [.converting filename output_filename, .successLine output_filename]
    else
      [.converting filename output_filename,
       .errorConverting filename command (w.exitCode command)]
  else []

/-- The loop of `convert_geojson_to_mbtiles` over the `os.listdir`
snapshot: every file is visited in order and contributes its events; no
iteration can abort the loop, since the only raising call is wrapped in
`try`/`except`. -/
def convertLoop (w : TippeWorld) (tippecanoe_path : String) (zoom_levels : Int × Int)
    (files : List String) : List TippeEvent :=
  files.flatMap (convertFileEvents w tippecanoe_path zoom_levels)

/-- Python `convert_geojson_to_mbtiles(tippecanoe_path, zoom_levels)`. -/
def convert_geojson_to_mbtiles (w : TippeWorld) (tippecanoe_path : String)
    (zoom_levels : Int × Int) : List TippeEvent :=
  convertLoop w tippecanoe_path zoom_levels w.files

/-- The `__main__` call, with the default arguments
`tippecanoe_path="tippecanoe"`, `zoom_levels=(6, 14)`. -/
def convert_geojson_to_mbtiles_defaults (w : TippeWorld) : List TippeEvent :=
  convert_geojson_to_mbtiles w "tippecanoe" (6, 14)

/-! ## Concrete inputs for the spec's scenarios -/

/-- The spec's scenario input `glacier_A.geojson`: one feature with
`properties.SGI = "B36-26"` and no `sgi-id`. -/
def glacierA : Geojson :=
  { features? := some
      [{ properties? := some [("SGI", .str "B36-26")],
         rest := [("type", .str "Feature")] }],
    rest := [("type", .str "FeatureCollection")] }

/-- A feature whose property mapping has no `SGI` key. -/
def plainFeature : Feature :=
  { properties? := some [("name", .str "Rhone")], rest := [("type", .str "Feature")] }

/-- A feature collection whose only feature lacks the `SGI` key. -/
def plainGeojson : Geojson :=
  { features? := some [plainFeature], rest := [("type", .str "FeatureCollection")] }

/-- An archive whose database cannot even be opened:
`sqlite3.connect` raises an `OSError`. -/
def badConnectDB : MBTilesDB :=
  { connectError := some (.osError "permission denied"),
    lookupError := none, metadata := [] }

/-- A healthy archive with metadata rows `minzoom=3`, `maxzoom=10`. -/
def goodDB : MBTilesDB :=
  { connectError := none, lookupError := none,
    metadata := [("minzoom", "3"), ("maxzoom", "10")] }

/-- An archive whose metadata query raises `sqlite3.DatabaseError`. -/
def lookupErrorDB : MBTilesDB :=
  { connectError := none,
    lookupError := some (.sqliteDatabase "file is not a database"),
    metadata := [] }

/-- An archive whose metadata table has no `minzoom`/`maxzoom` rows. -/
def noZoomDB : MBTilesDB :=
  { connectError := none, lookupError := none, metadata := [("name", "tiles")] }

/-- A working directory in which the first archive's database fails at
`sqlite3.connect` while the second archive is perfectly healthy. -/
def cexWorld : ExploderWorld :=
  { files := ["bad.mbtiles", "good.mbtiles"],
    existingDirs := [],
    db := fun f => if f == "bad.mbtiles" then badConnectDB else goodDB }

/-- A working directory in which the first archive's metadata query
raises a caught error class and the second archive is healthy. -/
def caughtWorld : ExploderWorld :=
  { files := ["broken.mbtiles", "good.mbtiles"],
    existingDirs := [],
    db := fun f => if f == "broken.mbtiles" then lookupErrorDB else goodDB }

/-- The spec's scenario for the Archive Exploder: `x.mbtiles` with no
metadata rows, `y.mbtiles` healthy but with a pre-existing directory
named `y`. -/
def scenarioWorld : ExploderWorld :=
  { files := ["x.mbtiles", "y.mbtiles"],
    existingDirs := ["y"],
    db := fun f => if f == "x.mbtiles" then noZoomDB else goodDB }

/-- A working directory for the Tile Builder Invoker in which the
`tippecanoe` invocation for `a.geojson` exits with status 1 and every
other invocation succeeds. -/
def tippeWorldWit : TippeWorld :=
  { cwd := "/data",
    files := ["a.geojson", "b.geojson"],
    exitCode := fun cmd =>
      if cmd == tippecanoeCommand "tippecanoe" (6, 14) "/data" "a.geojson" then 1 else 0 }

/-! ## Dictionary lemmas -/

theorem dictContains_eq_isSome (d : PDict) (k : String) :
    dictContains d k = (dictGet d k).isSome := by
  induction d with
  | nil => rfl
  | cons kv t ih => cases h : (kv.1 == k) <;> simp [dictContains, dictGet, h, ih]

theorem dictGet_eq_none_of_not_contains (d : PDict) (k : String)
    (h : dictContains d k = false) : dictGet d k = none := by
  have hs := dictContains_eq_isSome d k
  rw [h] at hs
  cases hg : dictGet d k with
  | none => rfl
  | some v => rw [hg] at hs; simp at hs

theorem contains_false_forall (d : PDict) (k : String)
    (h : dictContains d k = false) : ∀ kv ∈ d, (kv.1 == k) = false := by
  induction d with
  | nil => intro kv hkv; cases hkv
  | cons kv t ih =>
    rw [dictContains, Bool.or_eq_false_iff] at h
    intro kv' hkv'
    rcases List.mem_cons.mp hkv' with rfl | hm
    · exact h.1
    · exact ih h.2 kv' hm

theorem dictGet_append_single_self (d : PDict) (k : String) (v : PValue)
    (h : dictContains d k = false) : dictGet (d ++ [(k, v)]) k = some v := by
  induction d with
  | nil => simp [dictGet]
  | cons kv t ih =>
    rw [dictContains, Bool.or_eq_false_iff] at h
    rw [List.cons_append, dictGet, h.1]
    exact ih h.2

theorem dictGet_append_single_other (d : PDict) (k k' : String) (v : PValue)
    (h : k' ≠ k) : dictGet (d ++ [(k, v)]) k' = dictGet d k' := by
  induction d with
  | nil =>
    have hk : (k == k') = false := by simp [Ne.symm h]
    simp [dictGet, hk]
  | cons kv t ih =>
    cases hkv : (kv.1 == k') with
    | true => simp [dictGet, hkv]
    | false => simp [dictGet, hkv, ih]

theorem dictGet_mapReplace_self (d : PDict) (k : String) (v : PValue)
    (h : dictContains d k = true) :
    dictGet (d.map (fun kv => if kv.1 == k then (k, v) else kv)) k = some v := by
  induction d with
  | nil => cases h
  | cons kv t ih =>
    cases hkv : (kv.1 == k) with
    | true => simp [dictGet, hkv]
    | false =>
      rw [dictContains, hkv, Bool.false_or] at h
      rw [List.map_cons, if_neg (by simpa using hkv), dictGet, hkv]
      exact ih h

theorem dictGet_mapReplace_other (d : PDict) (k k' : String) (v : PValue)
    (h : k' ≠ k) :
    dictGet (d.map (fun kv => if kv.1 == k then (k, v) else kv)) k' = dictGet d k' := by
  induction d with
  | nil => rfl
  | cons kv t ih =>
    cases hkv : (kv.1 == k) with
    | true =>
      have hk : kv.1 = k := by simpa using hkv
      have h1 : (k == k') = false := by simp [Ne.symm h]
      have h2 : (kv.1 == k') = false := by simp [hk, Ne.symm h]
      rw [List.map_cons, if_pos (by simpa using hkv), dictGet, h1, dictGet, h2]
      exact ih
    | false =>
      rw [List.map_cons, if_neg (by simpa using hkv)]
      cases hkv' : (kv.1 == k') with
      | true => simp [dictGet, hkv']
      | false =>
        simp [dictGet, hkv']
        simpa using ih

theorem dictGet_dictSet_self (d : PDict) (k : String) (v : PValue) :
    dictGet (dictSet d k v) k = some v := by
  rw [dictSet]
  cases h : dictContains d k with
  | true => rw [if_pos rfl]; exact dictGet_mapReplace_self d k v h
  | false => rw [if_neg (by simp)]; exact dictGet_append_single_self d k v h

theorem dictGet_dictSet_other (d : PDict) (k k' : String) (v : PValue) (h : k' ≠ k) :
    dictGet (dictSet d k v) k' = dictGet d k' := by
  rw [dictSet]
  cases hc : dictContains d k with
  | true => rw [if_pos rfl]; exact dictGet_mapReplace_other d k k' v h
  | false => rw [if_neg (by simp)]; exact dictGet_append_single_other d k k' v h

theorem dictContains_dictSet_self (d : PDict) (k : String) (v : PValue) :
    dictContains (dictSet d k v) k = true := by
  rw [dictContains_eq_isSome, dictGet_dictSet_self]
  rfl

theorem dictSet_dictSet_same (d : PDict) (k : String) (v : PValue) :
    dictSet (dictSet d k v) k v = dictSet d k v := by
  have hgg : ∀ kv : String × PValue,
      (if ((if kv.1 == k then (k, v) else kv) : String × PValue).1 == k
        then ((k, v) : String × PValue) else (if kv.1 == k then (k, v) else kv)) =
      (if kv.1 == k then (k, v) else kv) := by
    intro kv
    cases hkv : (kv.1 == k) <;> simp [hkv]
  conv_lhs => rw [dictSet]
  rw [if_pos (by rw [dictContains_dictSet_self])]
  rw [dictSet]
  cases hc : dictContains d k with
  | true =>
    rw [if_pos rfl, List.map_map]
    exact List.map_congr_left (fun kv _ => hgg kv)
  | false =>
    rw [if_neg (by simp), List.map_append]
    have hall := contains_false_forall d k hc
    have h1 : d.map (fun kv => if kv.1 == k then (k, v) else kv) = d := by
      calc d.map (fun kv => if kv.1 == k then (k, v) else kv)
          = d.map id := List.map_congr_left (fun kv hkv => by simp [hall kv hkv])
        _ = d := List.map_id d
    rw [h1]
    simp

example :
    processFeature { properties? := some [("SGI", .str "B36-26")], rest := [] } =
      { properties? := some [("SGI", .str "B36-26"), ("sgi-id", .str "B36-26")], rest := [] } := by
  decide

example :
    processFeature { properties? := some [("name", .str "x")], rest := [] } =
      { properties? := some [("name", .str "x")], rest := [] } := by
  decide

example : splitext_root "glacier_A.geojson" = "glacier_A" := by decide

example : newDirNameOf "swiss.glaciers.mbtiles" = "swiss" := by decide

/-! ## Property Copier: helper lemmas -/

theorem processFeature_of_none (f : Feature) (hp : f.properties? = none) :
    processFeature f = f := by
  unfold processFeature
  rw [hp]

theorem processFeature_of_no_sgi (f : Feature) (props : PDict)
    (hp : f.properties? = some props) (hv : dictGet props "SGI" = none) :
    processFeature f = f := by
  simp [processFeature, hp, hv]

theorem processFeature_of_sgi (f : Feature) (props : PDict) (v : PValue)
    (hp : f.properties? = some props) (hv : dictGet props "SGI" = some v) :
    processFeature f = { f with properties? := some (dictSet props "sgi-id" v) } := by
  simp [processFeature, hp, hv]

theorem processFeature_idem (f : Feature) :
    processFeature (processFeature f) = processFeature f := by
  cases hp : f.properties? with
  | none =>
    rw [processFeature_of_none f hp, processFeature_of_none f hp]
  | some props =>
    cases hv : dictGet props "SGI" with
    | none =>
      rw [processFeature_of_no_sgi f props hp hv, processFeature_of_no_sgi f props hp hv]
    | some v =>
      rw [processFeature_of_sgi f props v hp hv]
      have hv2 : dictGet (dictSet props "sgi-id" v) "SGI" = some v := by
        rw [dictGet_dictSet_other props "sgi-id" "SGI" v (by decide)]
        exact hv
      rw [processFeature_of_sgi _ (dictSet props "sgi-id" v) v rfl hv2,
        dictSet_dictSet_same]

theorem processGeojson_features (g : Geojson) (fs : List Feature)
    (hg : g.features? = some fs) :
    (processGeojson g).features? = some (fs.map processFeature) := by
  simp [processGeojson, hg]

theorem processGeojson_idem (g : Geojson) :
    processGeojson (processGeojson g) = processGeojson g := by
  cases hg : g.features? with
  | none =>
    have h1 : processGeojson g = g := by simp [processGeojson, hg]
    rw [h1, h1]
  | some fs =>
    have h1 : processGeojson g = { g with features? := some (fs.map processFeature) } := by
      simp [processGeojson, hg]
    rw [h1]
    have h2 : processGeojson { g with features? := some (fs.map processFeature) } =
        { g with features? := some ((fs.map processFeature).map processFeature) } := by
      simp [processGeojson]
    rw [h2, List.map_map]
    have h3 : fs.map (processFeature ∘ processFeature) = fs.map processFeature :=
      List.map_congr_left (fun f _ => by simpa using processFeature_idem f)
    rw [h3]

/-! ## Property Copier: claim theorems -/

/-- C1 (code bug): the spec — and the script's own docstring — say the
result is written to a new file `updated_glacier_A.geojson` while
`glacier_A.geojson` stays untouched; the code instead opens `file_path`
itself for writing, so on the spec's scenario input the store afterwards
has no `updated_`-prefixed entry and the original entry's content has
changed. -/
theorem copier_overwrites_original :
    lookupFile (processDataDir [("glacier_A.geojson", glacierA)])
        "updated_glacier_A.geojson" = none ∧
    lookupFile (processDataDir [("glacier_A.geojson", glacierA)])
        "glacier_A.geojson" = some (processGeojson glacierA) ∧
    processGeojson glacierA ≠ glacierA := by
  decide

/-- C2: for every feature-collection file and every feature in it whose
property mapping contains `SGI` before processing, the processed file has
that feature's `sgi-id` equal to the value of `SGI`, and `SGI` itself
unchanged. -/
theorem copier_sgi_copied (g : Geojson) (fs : List Feature)
    (hg : g.features? = some fs) (i : Nat) (hi : i < fs.length)
    (props : PDict) (v : PValue)
    (hp : (fs.get ⟨i, hi⟩).properties? = some props)
    (hv : dictGet props "SGI" = some v) :
    ∃ fs', (processGeojson g).features? = some fs' ∧
      ∃ hi' : i < fs'.length, ∃ props',
        (fs'.get ⟨i, hi'⟩).properties? = some props' ∧
        dictGet props' "sgi-id" = some v ∧
        dictGet props' "SGI" = some v := by
  refine ⟨fs.map processFeature, processGeojson_features g fs hg,
    by simpa using hi, dictSet props "sgi-id" v, ?_, ?_, ?_⟩
  · have hmap : (fs.map processFeature).get ⟨i, by simpa using hi⟩ =
        processFeature (fs.get ⟨i, hi⟩) := by
      simp [List.getElem_map]
    rw [hmap, processFeature_of_sgi _ props v hp hv]
  · exact dictGet_dictSet_self props "sgi-id" v
  · rw [dictGet_dictSet_other props "sgi-id" "SGI" v (by decide)]
    exact hv

/-- Witness for C2 on the spec's scenario input. -/
theorem copier_sgi_copied_witness :
    ∃ fs', (processGeojson glacierA).features? = some fs' ∧
      ∃ hi' : 0 < fs'.length, ∃ props',
        (fs'.get ⟨0, hi'⟩).properties? = some props' ∧
        dictGet props' "sgi-id" = some (.str "B36-26") ∧
        dictGet props' "SGI" = some (.str "B36-26") :=
  copier_sgi_copied glacierA
    [{ properties? := some [("SGI", .str "B36-26")], rest := [("type", .str "Feature")] }]
    rfl 0 (by decide) [("SGI", .str "B36-26")] (.str "B36-26") rfl (by decide)

/-- C8: running the Property Copier twice is idempotent — the second
run's output store is identical to the first run's. -/
theorem copier_idempotent (store : List (String × Geojson)) :
    processDataDir (processDataDir store) = processDataDir store := by
  unfold processDataDir
  rw [List.map_map]
  apply List.map_congr_left
  intro nf _
  cases h : pyEndsWith nf.1 ".geojson" <;> simp [h, processGeojson_idem]

/-- C9: a feature whose property mapping does not contain `SGI` is
completely unchanged by the Property Copier — no key added, removed or
altered. -/
theorem copier_non_sgi_untouched (g : Geojson) (fs : List Feature)
    (hg : g.features? = some fs) (i : Nat) (hi : i < fs.length)
    (h : dictContains ((fs.get ⟨i, hi⟩).properties?.getD []) "SGI" = false) :
    ∃ fs', (processGeojson g).features? = some fs' ∧
      ∃ hi' : i < fs'.length, fs'.get ⟨i, hi'⟩ = fs.get ⟨i, hi⟩ := by
  refine ⟨fs.map processFeature, processGeojson_features g fs hg,
    by simpa using hi, ?_⟩
  have hmap : (fs.map processFeature).get ⟨i, by simpa using hi⟩ =
      processFeature (fs.get ⟨i, hi⟩) := by
    simp [List.getElem_map]
  rw [hmap]
  cases hp : (fs.get ⟨i, hi⟩).properties? with
  | none => exact processFeature_of_none _ hp
  | some props =>
    rw [hp] at h
    have hv : dictGet props "SGI" = none :=
      dictGet_eq_none_of_not_contains props "SGI" (by simpa using h)
    exact processFeature_of_no_sgi _ props hp hv

/-- Witness for C9 on a concrete feature lacking `SGI`. -/
theorem copier_non_sgi_untouched_witness :
    ∃ fs', (processGeojson plainGeojson).features? = some fs' ∧
      ∃ hi' : 0 < fs'.length, fs'.get ⟨0, hi'⟩ = plainFeature :=
  copier_non_sgi_untouched plainGeojson [plainFeature] rfl 0 (by decide) (by decide)

/-! ## Archive Exploder: helper lemmas -/

theorem handle_zoom_level_error_bounds (e : ZoomError) (filename : String) :
    (handle_zoom_level_error e filename).2 = (none, none) := by
  cases e <;> rfl

theorem get_zoom_levels_ok (db : MBTilesDB) (file : String)
    (hconn : db.connectError = none)
    (hcaught : db.lookupError.all caughtByExceptClause = true) :
    ∃ logs bounds, get_zoom_levels db file = .ok (logs, bounds) := by
  cases hl : db.lookupError with
  | some e =>
    have hce : caughtByExceptClause e = true := by
      rw [hl] at hcaught
      simpa using hcaught
    exact ⟨[.zoomErrorLog (handle_zoom_level_error e file).1],
      (handle_zoom_level_error e file).2,
      by simp [get_zoom_levels, hconn, hl, hce]⟩
  | none =>
    cases hmi : metaLookup db "minzoom" with
    | some vmi =>
      cases hma : metaLookup db "maxzoom" with
      | some vma =>
        exact ⟨[], (some (.strVal vmi), some (.strVal vma)),
          by simp [get_zoom_levels, hconn, hl, hmi, hma]⟩
      | none =>
        exact ⟨[.noZoomWarning file], (some (.intVal 1), some (.intVal 12)),
          by simp [get_zoom_levels, hconn, hl, hmi, hma]⟩
    | none =>
      cases hma : metaLookup db "maxzoom" <;>
        exact ⟨[.noZoomWarning file], (some (.intVal 1), some (.intVal 12)),
          by simp [get_zoom_levels, hconn, hl, hmi, hma]⟩

theorem processMBTilesFile_ok (db : MBTilesDB) (dirs : List String) (file : String)
    (hconn : db.connectError = none)
    (hcaught : db.lookupError.all caughtByExceptClause = true) :
    ∃ evs, processMBTilesFile db dirs file = .ok evs := by
  cases hdir : dirs.contains (newDirNameOf file) with
  | true =>
    have hmem : newDirNameOf file ∈ dirs := by simpa using hdir
    exact ⟨[.dirExistsSkip (newDirNameOf file)], by simp [processMBTilesFile, hmem]⟩
  | false =>
    have hmem : newDirNameOf file ∉ dirs := by simpa using hdir
    obtain ⟨logs, bounds, hz⟩ := get_zoom_levels_ok db file hconn hcaught
    rcases bounds with ⟨mi, ma⟩
    cases mi with
    | some vmi =>
      cases ma with
      | some vma =>
        exact ⟨logs ++ [.ranCommand (newDirNameOf file) file vmi.render vma.render],
          by simp [processMBTilesFile, hmem, hz]⟩
      | none =>
        exact ⟨logs ++ [.missingZoomSkip file], by simp [processMBTilesFile, hmem, hz]⟩
    | none =>
      cases ma <;>
        exact ⟨logs ++ [.missingZoomSkip file], by simp [processMBTilesFile, hmem, hz]⟩

theorem explodeLoop_completes (w : ExploderWorld) (files : List String) (st : FS)
    (h : ∀ f ∈ files, pyEndsWith f ".mbtiles" = true →
      (w.db f).connectError = none ∧
      (w.db f).lookupError.all caughtByExceptClause = true) :
    (explodeLoop w files st).2.2 = none := by
  induction files generalizing st with
  | nil => rfl
  | cons f rest ih =>
    have hrest : ∀ g ∈ rest, pyEndsWith g ".mbtiles" = true →
        (w.db g).connectError = none ∧
        (w.db g).lookupError.all caughtByExceptClause = true :=
      fun g hg => h g (List.mem_cons_of_mem f hg)
    cases hm : pyEndsWith f ".mbtiles" with
    | false =>
      simp only [explodeLoop, hm]
      exact ih st hrest
    | true =>
      have hf := h f (List.mem_cons_self f rest) hm
      obtain ⟨evs, hevs⟩ := processMBTilesFile_ok (w.db f) st.dirs f hf.1 hf.2
      simp only [explodeLoop, hm, hevs]
      exact ih _ hrest

theorem applyEvent_files (st : FS) (ev : ExplodeEvent) :
    (applyEvent st ev).files = st.files := by
  cases ev <;> rfl

theorem foldl_applyEvent_files (evs : List ExplodeEvent) (st : FS) :
    (evs.foldl applyEvent st).files = st.files := by
  induction evs generalizing st with
  | nil => rfl
  | cons ev rest ih => rw [List.foldl_cons, ih, applyEvent_files]

theorem explodeLoop_files_invariant (w : ExploderWorld) (files : List String) (st : FS) :
    (explodeLoop w files st).1.files = st.files := by
  induction files generalizing st with
  | nil => rfl
  | cons f rest ih =>
    cases hm : pyEndsWith f ".mbtiles" with
    | false =>
      simp only [explodeLoop, hm]
      exact ih st
    | true =>
      cases hpf : processMBTilesFile (w.db f) st.dirs f with
      | error e => simp [explodeLoop, hm, hpf]
      | ok evs => simp [explodeLoop, hm, hpf, ih, foldl_applyEvent_files]

/-! ## Archive Exploder: claim theorems -/

/-- C3 is false as stated (corrected): an error raised while opening the
archive's embedded database (`sqlite3.connect` stands before the `try`
block, and the main loop has no handler) terminates the whole batch.  In
`cexWorld` the first archive's connect raises an `OSError`; the run ends
with that uncaught error, no events at all are produced, and the healthy
second archive is never processed — even though on its own it would have
been converted. -/
theorem exploder_connect_error_stops_batch :
    (runExploder cexWorld).2.2 ≠ none ∧
    (runExploder cexWorld).2.2 = some (.osError "permission denied") ∧
    (runExploder cexWorld).2.1 = [] ∧
    processMBTilesFile (cexWorld.db "good.mbtiles") [] "good.mbtiles" =
      .ok [.ranCommand "good" "good.mbtiles" "3" "10"] :=
  ⟨by decide, by decide, by decide, rfl⟩

/-- C3 (amended): as long as no archive's database raises at
`sqlite3.connect` time and every error raised during the metadata lookup
belongs to a class listed in the `except` tuple, no per-file error
terminates the batch — the loop runs to completion. -/
theorem exploder_caught_errors_do_not_stop_batch (w : ExploderWorld)
    (h : ∀ f ∈ w.files, pyEndsWith f ".mbtiles" = true →
      (w.db f).connectError = none ∧
      (w.db f).lookupError.all caughtByExceptClause = true) :
    (runExploder w).2.2 = none :=
  explodeLoop_completes w w.files { files := w.files, dirs := w.existingDirs } h

/-- Witness for the amended C3: a batch whose first archive raises a
caught `sqlite3.DatabaseError` during the lookup still completes. -/
theorem exploder_caught_errors_witness :
    (runExploder caughtWorld).2.2 = none :=
  exploder_caught_errors_do_not_stop_batch caughtWorld (by decide)

/-- C4: an archive whose metadata lookup raises a caught error class
resolves the bounds to `(None, None)`, logs the classified message from
`handle_zoom_level_error`, and is skipped with no `ogr2ogr` invocation —
the default zoom pair is never used on this path. -/
theorem exploder_lookup_error_skips (db : MBTilesDB) (dirs : List String)
    (file : String) (e : ZoomError)
    (hdir : dirs.contains (newDirNameOf file) = false)
    (hconn : db.connectError = none)
    (hlook : db.lookupError = some e)
    (hcaught : caughtByExceptClause e = true) :
    get_zoom_levels db file =
      .ok ([.zoomErrorLog (handle_zoom_level_error e file).1], (none, none)) ∧
    processMBTilesFile db dirs file =
      .ok [.zoomErrorLog (handle_zoom_level_error e file).1, .missingZoomSkip file] := by
  have hmem : newDirNameOf file ∉ dirs := by simpa using hdir
  have hz : get_zoom_levels db file =
      .ok ([.zoomErrorLog (handle_zoom_level_error e file).1], (none, none)) := by
    simp [get_zoom_levels, hconn, hlook, hcaught, handle_zoom_level_error_bounds]
  refine ⟨hz, ?_⟩
  simp [processMBTilesFile, hmem, hz]

/-- Witness for C4 on an archive whose lookup raises
`sqlite3.DatabaseError`. -/
theorem exploder_lookup_error_skips_witness :
    get_zoom_levels lookupErrorDB "broken.mbtiles" =
      .ok ([.zoomErrorLog (handle_zoom_level_error
        (.sqliteDatabase "file is not a database") "broken.mbtiles").1], (none, none)) ∧
    processMBTilesFile lookupErrorDB [] "broken.mbtiles" =
      .ok [.zoomErrorLog (handle_zoom_level_error
          (.sqliteDatabase "file is not a database") "broken.mbtiles").1,
        .missingZoomSkip "broken.mbtiles"] :=
  exploder_lookup_error_skips lookupErrorDB [] "broken.mbtiles"
    (.sqliteDatabase "file is not a database") rfl rfl rfl rfl

/-- C5: an archive whose metadata table has neither a `minzoom` nor a
`maxzoom` row (and whose lookup raises nothing) resolves the bounds to
the default pair `(1, 12)` and proceeds to the `ogr2ogr` invocation with
`MINZOOM=1 MAXZOOM=12`. -/
theorem exploder_missing_zoom_defaults (db : MBTilesDB) (dirs : List String) (file : String)
    (hdir : dirs.contains (newDirNameOf file) = false)
    (hconn : db.connectError = none)
    (hlook : db.lookupError = none)
    (hmin : metaLookup db "minzoom" = none)
    (hmax : metaLookup db "maxzoom" = none) :
    get_zoom_levels db file =
      .ok ([.noZoomWarning file], (some (.intVal 1), some (.intVal 12))) ∧
    processMBTilesFile db dirs file =
      .ok [.noZoomWarning file, .ranCommand (newDirNameOf file) file "1" "12"] := by
  have hmem : newDirNameOf file ∉ dirs := by simpa using hdir
  have hz : get_zoom_levels db file =
      .ok ([.noZoomWarning file], (some (.intVal 1), some (.intVal 12))) := by
    simp [get_zoom_levels, hconn, hlook, hmin, hmax]
  refine ⟨hz, ?_⟩
  have h1 : (ZoomVal.intVal 1).render = "1" := rfl
  have h12 : (ZoomVal.intVal 12).render = "12" := rfl
  simp [processMBTilesFile, hmem, hz, h1, h12]

/-- Witness for C5 on the spec's `x.mbtiles` (no metadata rows). -/
theorem exploder_missing_zoom_defaults_witness :
    get_zoom_levels noZoomDB "x.mbtiles" =
      .ok ([.noZoomWarning "x.mbtiles"], (some (.intVal 1), some (.intVal 12))) ∧
    processMBTilesFile noZoomDB ["y"] "x.mbtiles" =
      .ok [.noZoomWarning "x.mbtiles",
        .ranCommand (newDirNameOf "x.mbtiles") "x.mbtiles" "1" "12"] :=
  exploder_missing_zoom_defaults noZoomDB ["y"] "x.mbtiles"
    (by decide) rfl rfl (by decide) (by decide)

/-- C6: an archive whose derived target directory already exists is
skipped with only the collision log line: no `ogr2ogr` invocation occurs,
and folding the produced events over any filesystem state leaves it
untouched — the existing directory is never modified. -/
theorem exploder_existing_dir_skips (db : MBTilesDB) (dirs : List String) (file : String)
    (h : dirs.contains (newDirNameOf file) = true) :
    processMBTilesFile db dirs file = .ok [.dirExistsSkip (newDirNameOf file)] ∧
    (∀ st : FS, [ExplodeEvent.dirExistsSkip (newDirNameOf file)].foldl applyEvent st = st) := by
  have hmem : newDirNameOf file ∈ dirs := by simpa using h
  exact ⟨by simp [processMBTilesFile, hmem], fun st => rfl⟩

/-- Witness for C6 on the spec's `y.mbtiles` with pre-existing
directory `y`. -/
theorem exploder_existing_dir_skips_witness :
    processMBTilesFile (scenarioWorld.db "y.mbtiles") ["y"] "y.mbtiles" =
      .ok [.dirExistsSkip (newDirNameOf "y.mbtiles")] ∧
    [ExplodeEvent.dirExistsSkip (newDirNameOf "y.mbtiles")].foldl applyEvent
        { files := scenarioWorld.files, dirs := ["y"] } =
      { files := scenarioWorld.files, dirs := ["y"] } :=
  ⟨(exploder_existing_dir_skips (scenarioWorld.db "y.mbtiles") ["y"] "y.mbtiles" (by decide)).1,
   (exploder_existing_dir_skips (scenarioWorld.db "y.mbtiles") ["y"] "y.mbtiles" (by decide)).2
     { files := scenarioWorld.files, dirs := ["y"] }⟩

/-- C10: no step of the Archive Exploder's per-file sequence removes a
file — after a whole run (including successful conversions) every input
archive is still present in the working directory's file set.  The
stated post-success removal of the archive is never performed by the
included logic. -/
theorem exploder_archive_survives (w : ExploderWorld) (f : String) (hf : f ∈ w.files) :
    f ∈ (runExploder w).1.files := by
  have h := explodeLoop_files_invariant w w.files { files := w.files, dirs := w.existingDirs }
  rw [runExploder, h]
  exact hf

/-- Witness for C10: `x.mbtiles` is successfully converted in
`scenarioWorld` and still exists afterwards. -/
theorem exploder_archive_survives_witness :
    "x.mbtiles" ∈ (runExploder scenarioWorld).1.files :=
  exploder_archive_survives scenarioWorld "x.mbtiles" (by decide)

/-! ## Tile Builder Invoker: claim theorem -/

/-- C7: every `.geojson` file in the listing is visited (its progress
line appears in the run's events no matter what any other invocation
does), and when its `tippecanoe` invocation exits non-zero the
`CalledProcessError` is caught and logged together with the triggering
file name — so no single failure aborts the batch. -/
theorem invoker_failure_logged_and_continues (w : TippeWorld) (tippecanoe_path : String)
    (zoom_levels : Int × Int) (files : List String) (f : String)
    (hf : f ∈ files) (hgeo : pyEndsWith f ".geojson" = true) :
    TippeEvent.converting f (splitext_root f ++ ".mbtiles") ∈
      convertLoop w tippecanoe_path zoom_levels files ∧
    (w.exitCode (tippecanoeCommand tippecanoe_path zoom_levels w.cwd f) ≠ 0 →
      TippeEvent.errorConverting f (tippecanoeCommand tippecanoe_path zoom_levels w.cwd f)
          (w.exitCode (tippecanoeCommand tippecanoe_path zoom_levels w.cwd f)) ∈
        convertLoop w tippecanoe_path zoom_levels files) := by
  constructor
  · apply List.mem_flatMap.mpr
    refine ⟨f, hf, ?_⟩
    cases he : (w.exitCode (tippecanoeCommand tippecanoe_path zoom_levels w.cwd f) == 0) <;>
      simp [convertFileEvents, hgeo, he]
  · intro hne
    have he : (w.exitCode (tippecanoeCommand tippecanoe_path zoom_levels w.cwd f) == 0) = false := by
      simpa using hne
    apply List.mem_flatMap.mpr
    refine ⟨f, hf, ?_⟩
    simp [convertFileEvents, hgeo, he]

/-- Witness for C7: in `tippeWorldWit` the invocation for `a.geojson`
exits with status 1; its progress line appears and its failure is logged
with the file name. -/
theorem invoker_failure_witness :
    TippeEvent.converting "a.geojson" (splitext_root "a.geojson" ++ ".mbtiles") ∈
      convertLoop tippeWorldWit "tippecanoe" (6, 14) tippeWorldWit.files ∧
    (tippeWorldWit.exitCode
        (tippecanoeCommand "tippecanoe" (6, 14) tippeWorldWit.cwd "a.geojson") ≠ 0 →
      TippeEvent.errorConverting "a.geojson"
          (tippecanoeCommand "tippecanoe" (6, 14) tippeWorldWit.cwd "a.geojson")
          (tippeWorldWit.exitCode
            (tippecanoeCommand "tippecanoe" (6, 14) tippeWorldWit.cwd "a.geojson")) ∈
        convertLoop tippeWorldWit "tippecanoe" (6, 14) tippeWorldWit.files) :=
  invoker_failure_logged_and_continues tippeWorldWit "tippecanoe" (6, 14)
    tippeWorldWit.files "a.geojson" (by decide) (by decide)
